import Mathlib

/-!
# Shallow embedding of the tableau model-generation engine

This file embeds, in Lean 4, the core data model and operations of the
Python tableau model-generation engine:

* `src/logic/base/syntax.py`   — sorted terms, formulas, substitution and
  unification (`Term`, `Formula`, the sugar classes `Or`/`Implies`/`Exists`/
  `ExistsF`, `Substitution._unify`, `Substitution.merge`,
  `Substitution.most_general_unifier`);
* `src/logic/base/tableau.py`  — the `Tableau` node data structure
  (`__post_init__`, `branch_formulas`, `merge`, `get_unique_tableau`);
* `src/logic/base/calculus.py` — the calculus rules
  (`try_and_elim`, `try_double_negation`, `try_forall_elim`,
  `try_focused_forall_elim`, `try_or_elim`, `try_exists_elim`,
  `try_focused_exists_elim`, `try_branching_rules`,
  `try_non_branching_rules`, `is_branch_consistent`, `generate_models`);
* `src/logic/simple_event_semantics/syntax.py` — the event-uniqueness
  axioms (`Axioms.single_agent_events`, `Axioms.single_type_events`).

Modelling conventions, chosen once and used consistently:

* Python strings are Lean `String`s; the hash key of a formula/term (Python
  `hash(str(x))`) is modelled by the canonical string itself.  CPython string
  hashing is randomized per process, so hash collisions between distinct
  strings are not a definable behaviour; the model identifies "equal hash"
  with "equal canonical string".
* Python `float` salience values are modelled as `Rat` (the values occurring
  in the source, `1.0`, `0.7`, `0.4`, are compared and maxed only, which the
  rationals reproduce exactly).
* A Python `dict` keyed by terms is an insertion-ordered association list
  with unique keys (CPython dicts preserve insertion order).
* A Python `set` of formulas is a list deduplicated on insertion: a new
  element is dropped exactly when an existing member has the same hash key
  (canonical string) AND compares `==` to it — CPython compares the stored
  entry (left) against the probe (right), and `__eq__` of the formula
  classes is not symmetric, so the orientation is kept throughout.
  Iteration order of a CPython set is unspecified; the model fixes insertion
  order, and all theorems below are stated order-insensitively.
* Exceptions (`AssertionError` raised by `assert`, `NotImplementedError`,
  and the `AttributeError` from accessing `.sort` on a bare `Not`) are
  modelled by an `Except`/result type.
* The quantifier classes carry Python closures (`PartialFormula`).  The
  repository only ever builds these as "substitute the argument for the
  bound variable in a fixed body", and only ever applies them to terms, so
  they are embedded first-order: a bound variable together with a body
  formula, application being capture-aware substitution.
-/

namespace TableauModel

/-! ## Terms (`syntax.py`: `Sort`, `Constant`, `EConstant`, `Variable`) -/

/-- Kind (Python class) of a term: `Constant`, `EConstant` (witness without
the unique-name assumption) or `Variable`. -/
inductive TKind where
  | const
  | econst
  | var
deriving DecidableEq, Repr

/-- A term of the sorted logic: its Python class, the name of its `Sort`,
and its own name.  `Term.__eq__` in the source compares the class, the sort
and the canonical string, which for this flat term language is exactly
structural equality, so Lean's structural equality is used for `==`. -/
structure Term where
  kind : TKind
  sort : String
  name : String
deriving DecidableEq, Repr

/-- Source `Term._get_str`: constants and witnesses print as `sort(name)`,
variables print as their bare name (`Constant._get_str`,
`EConstant._get_str`, `Variable._get_str`). -/
def Term.str (t : Term) : String :=
  match t.kind with
  | .var => t.name
  | _ => t.sort ++ "(" ++ t.name ++ ")"

/-! ## Formulas (`syntax.py`)

Constructors mirror the Python classes that have distinct behaviour:
`atom` is `AppliedPredicate` (including `LogicalConstant`; the predicate's
arity equals the argument-list length, which `AppliedPredicate.__post_init__`
asserts), `eqF` is the subclass `Eq`, and the sugar classes `Or`, `Implies`,
`Exists`, `ExistsF` are kept as their own constructors because they override
`_get_str` while behaving as their De Morgan encodings for `isinstance`
checks, `.formula` access and `__eq__`. -/

inductive Formula where
  | atom (name : String) (args : List Term)
  | eqF (l r : Term)
  | andF (l r : Formula)
  | notF (f : Formula)
  | orF (l r : Formula)
  | impF (l r : Formula)
  | forallF (v : Term) (body : Formula)
  | forallFF (v : Term) (guard body : Formula)
  | existsF (v : Term) (body : Formula)
  | existsFF (v : Term) (guard body : Formula)
deriving DecidableEq, Repr

/-- The module-level singleton `True_ = LogicalConstant("T")`. -/
def trueF : Formula := .atom "T" []

/-- The module-level singleton `False_ = LogicalConstant("F")`. -/
def falseF : Formula := .atom "F" []

namespace Formula

/-- Source `isinstance(f, S.Not)` — the sugar classes `Or`, `Implies`, `Exists`,
`ExistsF` are Python subclasses of `Not`. -/
def isNot : Formula → Bool
  | .notF _ | .orF _ _ | .impF _ _ | .existsF _ _ | .existsFF _ _ _ => true
  | _ => false

/-- Source `isinstance(f, S.And)`. -/
def isAnd : Formula → Bool
  | .andF _ _ => true
  | _ => false

/-- Source `isinstance(f, S.Forall)` (equivalently `QuantifiedFormula`: `Forall` is
its only subclass). -/
def isForall : Formula → Bool
  | .forallF _ _ => true
  | _ => false

/-- Source `isinstance(f, S.ForallF)` (equivalently `FocusQuantifiedFormula`). -/
def isForallF : Formula → Bool
  | .forallFF _ _ _ => true
  | _ => false

/-- Source `isinstance(f, S.Eq)`. -/
def isEq : Formula → Bool
  | .eqF _ _ => true
  | _ => false

/-- Source `isinstance(f, S.AppliedPredicate)` (`is_atom` in the source); `Eq` is a
subclass of `AppliedPredicate`. -/
def isAtomP : Formula → Bool
  | .atom _ _ | .eqF _ _ => true
  | _ => false

/-- The `.formula` attribute of the `Not` family.  `Or.__init__` stores
`And(Not(left), Not(right))`, `Implies(p, q)` is `Or(Not p, q)`,
`Exists` stores `Forall(x, Not body)` and `ExistsF` stores
`ForallF(x, guard, Not body)`.  On non-`Not` formulas the attribute does
not exist in Python; this total function is only ever used behind an
`isNot` guard and returns its argument otherwise. -/
def inner : Formula → Formula
  | .notF f => f
  | .orF l r => andF (notF l) (notF r)
  | .impF l r => andF (notF (notF l)) (notF r)
  | .existsF v b => forallF v (notF b)
  | .existsFF v g b => forallFF v g (notF b)
  | f => f

/-- Source `.left` of an `And` (junk elsewhere, used behind guards). -/
def andLeft : Formula → Formula
  | .andF l _ => l
  | f => f

/-- Source `.right` of an `And` (junk elsewhere, used behind guards). -/
def andRight : Formula → Formula
  | .andF _ r => r
  | f => f

/-- Source `is_literal` from the source: an `AppliedPredicate` or the negation of
one. -/
def isLiteral (f : Formula) : Bool :=
  if f.isNot then f.inner.isAtomP else f.isAtomP

/-- Source `Formula.__str__` (with `annotation = None`, the only case arising in the
embedded core): `AppliedPredicate._get_str` prints `name` for arity 0 and
`name(a1, a2, …)` otherwise; `Eq` prints `l = r`; `And` prints `(l & r)`;
`Not` prints `-f`; `Or` prints `(l | r)`; `Implies` prints `(l -> r)`;
`QuantifiedFormula` prints `A_v.body`, `FocusQuantifiedFormula` prints
`A_v:guard.body`; `Exists` prints `E_v.body` and `ExistsF` prints
`E_v:guard.body` (each via `self.formula.applied`, which strips the stored
inner negation). -/
def str : Formula → String
  | .atom n [] => n
  | .atom n args => n ++ "(" ++ String.intercalate ", " (args.map Term.str) ++ ")"
  | .eqF l r => l.str ++ " = " ++ r.str
  | .andF l r => "(" ++ l.str ++ " & " ++ r.str ++ ")"
  | .notF f => "-" ++ f.str
  | .orF l r => "(" ++ l.str ++ " | " ++ r.str ++ ")"
  | .impF l r => "(" ++ l.str ++ " -> " ++ r.str ++ ")"
  | .forallF v b => "A_" ++ v.str ++ "." ++ b.str
  | .forallFF v g b => "A_" ++ v.str ++ ":" ++ g.str ++ "." ++ b.str
  | .existsF v b => "E_" ++ v.str ++ "." ++ b.str
  | .existsFF v g b => "E_" ++ v.str ++ ":" ++ g.str ++ "." ++ b.str

end Formula

/-- Substitution of a term for a term inside a (flat) term: the fragment has
no function symbols, so a term is replaced exactly when it equals the
variable being substituted. -/
def substT (v repl t : Term) : Term :=
  if t = v then repl else t

/-- Substitution of `repl` for the bound variable `v` in a formula body —
the first-order rendering of applying a `PartialFormula` closure.  An inner
binder equal to `v` shadows it, matching the Python closures. -/
def substF (v repl : Term) : Formula → Formula
  | .atom n args => .atom n (args.map (substT v repl))
  | .eqF l r => .eqF (substT v repl l) (substT v repl r)
  | .andF l r => .andF (substF v repl l) (substF v repl r)
  | .notF f => .notF (substF v repl f)
  | .orF l r => .orF (substF v repl l) (substF v repl r)
  | .impF l r => .impF (substF v repl l) (substF v repl r)
  | .forallF w b => if w = v then .forallF w b else .forallF w (substF v repl b)
  | .forallFF w g b =>
      if w = v then .forallFF w g b
      else .forallFF w (substF v repl g) (substF v repl b)
  | .existsF w b => if w = v then .existsF w b else .existsF w (substF v repl b)
  | .existsFF w g b =>
      if w = v then .existsFF w g b
      else .existsFF w (substF v repl g) (substF v repl b)

/-- Desugaring view used by `__eq__`: the sugar classes compare exactly as
the formulas their constructors store (`Or(l, r)` as
`Not(And(Not l, Not r))` etc.), and an `Eq` compares as a generic
`AppliedPredicate` with the shared predicate object `Predicate("eq", 2)`. -/
def eqView : Formula → Formula
  | .atom n args => .atom n args
  | .eqF l r => .atom "eq" [l, r]
  | .andF l r => .andF (eqView l) (eqView r)
  | .notF f => .notF (eqView f)
  | .orF l r => .notF (.andF (.notF (eqView l)) (.notF (eqView r)))
  | .impF l r => .notF (.andF (.notF (.notF (eqView l))) (.notF (eqView r)))
  | .forallF v b => .forallF v (eqView b)
  | .forallFF v g b => .forallFF v (eqView g) (eqView b)
  | .existsF v b => .notF (.forallF v (.notF (eqView b)))
  | .existsFF v g b => .notF (.forallFF v (eqView g) (.notF (eqView b)))

/-- Structural part of `Formula.__eq__`, applied after `eqView`:

* `AppliedPredicate.__eq__` compares the predicates (dataclass equality of
  name and arity — arity is the argument count) and then the zipped
  arguments;
* `And.__eq__` and `Not.__eq__` compare componentwise;
* `QuantifiedFormula.__eq__` compares quantifier (always `A`) and sort, then
  applies both partial formulas to SELF's bound variable — i.e. compares
  `b` with `b'` after substituting `v` for `v'`;
* `FocusQuantifiedFormula.__eq__` compares sorts, then — as written in the
  source, lines 414–421 of `syntax.py` — compares self's focused part with
  o2's focused part AND self's UNFOCUSED part with o2's FOCUSED part (the
  second comparison uses `o2.focused_partial`, faithfully preserved here);
* any cross-class comparison is `False`.

Recursion is on the first argument; the quantifier cases recurse into the
structurally smaller body on the left. -/
def coreEq : Formula → Formula → Bool
  | .atom n args, .atom n2 args2 =>
      n = n2 && args.length = args2.length && args = args2
  | .andF l r, .andF l2 r2 => coreEq l l2 && coreEq r r2
  | .notF f, .notF f2 => coreEq f f2
  | .forallF v b, .forallF v2 b2 =>
      v.sort = v2.sort && coreEq b (substF v2 v b2)
  | .forallFF v g b, .forallFF v2 _ b2 =>
      v.sort = v2.sort && coreEq b (substF v2 v b2) && coreEq g (substF v2 v b2)
  | _, _ => false

/-- Source `Formula.__eq__` (left operand's method, as CPython calls it for the
stored element of a container compared against a probe). -/
def pyEq (f g : Formula) : Bool :=
  coreEq (eqView f) (eqView g)

/-- Set-identity of two formulas inside a CPython `set`/`dict`: equal hash
key (canonical string — see the module comment on hashing) and `__eq__`,
stored entry on the left. -/
def fmatch (e probe : Formula) : Bool :=
  e.str = probe.str && pyEq e probe


/-! ## Python container semantics -/

/-- Membership of a probe formula in a Python LIST of formulas (`x in lst`):
CPython compares each stored element (left) with the probe via `__eq__`;
hashes are not consulted for lists. -/
def pyListMem (probe : Formula) (l : List Formula) : Bool :=
  l.any (fun e => pyEq e probe)

/-- Generic "build a Python set from an iterable": keep an element exactly
when no already-kept element matches it (CPython `set(iterable)` keeps the
first representative of each hash+eq class). -/
def dedupBy (r : α → α → Bool) (l : List α) : List α :=
  go [] l
where
  go (kept : List α) : List α → List α
    | [] => []
    | x :: xs =>
        if kept.any (fun e => r e x) then go kept xs
        else x :: go (kept ++ [x]) xs

/-- Source `set(formulas)` — dedup by hash key and `__eq__`. -/
def pySetOfList (l : List Formula) : List Formula :=
  dedupBy fmatch l

/-- Source `set.add(f)` — dropped exactly when a stored member matches it. -/
def pySetInsert (s : List Formula) (f : Formula) : List Formula :=
  if s.any (fun e => fmatch e f) then s else s ++ [f]

/-- Source `s.difference(other_set)` with a SET argument (as in `try_and_elim`):
CPython iterates over `s` and keeps the entries not contained in `other`;
the containment test compares the entries of `other` (left) against the
kept candidate (right). -/
def pyDiffSetSet (s other : List Formula) : List Formula :=
  s.filter (fun x => !(other.any (fun e => fmatch e x)))

/-- Source `s.difference(iterable)` with a non-set iterable, and
`s.difference_update(iterable)` (as in `try_double_negation`,
`try_forall_elim`, `try_or_elim` and `Tableau.get_unique_tableau`):
CPython discards each item of the iterable from the set, the discard lookup
comparing the set entry (left) against the item (right). -/
def pyDiffUpdateList (s items : List Formula) : List Formula :=
  s.filter (fun x => !(items.any (fun item => fmatch x item)))

/-- Source `set(terms)`: term hashes are canonical strings and `Term.__eq__` is
structural, and structurally equal terms have equal strings, so CPython
set identity on terms is plain structural equality. -/
def tSetOfList (l : List Term) : List Term :=
  dedupBy (fun a b : Term => a = b) l

/-- Source `set(terms).difference_update(iterable)` / containment of terms. -/
def tSetDiffList (s items : List Term) : List Term :=
  s.filter (fun x => !(items.contains x))

/-! ## Substitutions (`syntax.py`: class `Substitution`) -/

/-- Source `Substitution.inner_dict`: an insertion-ordered mapping term → term. -/
abbrev Substitution := List (Term × Term)

/-- The empty substitution `Substitution()`. -/
def Substitution.empty : Substitution := []

/-- Source `dict.get(k)`. -/
def dictGet (s : Substitution) (k : Term) : Option Term :=
  (s.find? (fun kv => kv.1 = k)).map (·.2)

/-- Source `dict[k] = v`: overwrite in place if the key exists (keeping its
insertion position), else append. -/
def dictSet (s : Substitution) (k v : Term) : Substitution :=
  if s.any (fun kv => kv.1 = k) then
    s.map (fun kv => if kv.1 = k then (k, v) else kv)
  else s ++ [(k, v)]

/-- Source `Substitution.apply` / `__call__`: `self.inner_dict.get(term) or term`
(terms are always truthy objects). -/
def Substitution.apply (s : Substitution) (t : Term) : Term :=
  (dictGet s t).getD t

/-- Source `Substitution._update(other)`: replace every value `v` of the dict by
`other(v)`, keeping keys and their order. -/
def Substitution.updateWith (s other : Substitution) : Substitution :=
  s.map (fun kv => (kv.1, other.apply kv.2))

/-- Result of `Substitution._unify`: a substitution, or an uncaught Python
exception. -/
inductive URes where
  | ok (s : Substitution)
  | assertErr
  | notImplErr
deriving DecidableEq

/-- Source `Substitution._unify(term1, term2)`, exactly as written in
`syntax.py` lines 598–614:

1. identical terms unify with the empty substitution;
2. `assert isinstance(term1, Constant) and isinstance(term2, Constant)`
   — note: `Variable` and `EConstant` are NOT subclasses of `Constant`,
   so this assertion fails (AssertionError) whenever either side is a
   variable or a witness;
3. the two `isinstance(…, (Variable, EConstant))` branches follow the
   assertion in the source and are therefore unreachable (kept verbatim);
4. otherwise `NotImplementedError` is raised. -/
def unify (t1 t2 : Term) : URes :=
  if t1 = t2 then .ok Substitution.empty
  else if !(t1.kind = .const && t2.kind = .const) then .assertErr
  else if t1.kind = .var || t1.kind = .econst then .ok [(t1, t2)]
  else if t2.kind = .var || t2.kind = .econst then .ok [(t2, t1)]
  else .notImplErr

/-- Result of `Substitution.merge`: a merged substitution, `None`
(a caught AssertionError, reported to the caller as failure), or an
uncaught exception escaping the call. -/
inductive SRes where
  | ok (s : Substitution)
  | fail
  | exc
deriving DecidableEq

/-- The `for from_, to_ in merged_rest.inner_dict.items()` loop body of
`Substitution.merge`: fold the entries of `rest` into `output`.  Only
`AssertionError` is caught (returning `None` i.e. `.fail`);
`NotImplementedError` escapes. -/
def Substitution.mergeFold (output : Substitution) : List (Term × Term) → SRes
  | [] => .ok output
  | (k, v) :: rest =>
      match dictGet output k with
      | some w =>
          match unify w v with
          | .ok ns => Substitution.mergeFold (output.updateWith ns) rest
          | .assertErr => .fail
          | .notImplErr => .exc
      | none => Substitution.mergeFold (dictSet output k v) rest

/-- Source `Substitution.merge(*substitutions)` (`syntax.py` lines 559–579):
a single substitution is copied; otherwise the tail is merged recursively
and folded into the head.  (The source would raise `ValueError` on zero
arguments via tuple unpacking; `Tableau.merge` never calls it with zero
arguments, and the case is mapped to `.fail` here.) -/
def Substitution.merge : List Substitution → SRes
  | [] => .fail
  | [s] => .ok s
  | s :: rest =>
      match Substitution.merge rest with
      | .fail => .fail
      | .exc => .exc
      | .ok m => Substitution.mergeFold s m

/-- Source `Substitution.most_general_unifier(equalities)` (`syntax.py`
lines 581–596): fold `_unify` over the equalities, catching BOTH
`AssertionError` and `NotImplementedError` as `None`. -/
def mostGeneralUnifier (eqs : List (Term × Term)) : Option Substitution :=
  go Substitution.empty eqs
where
  go (sub : Substitution) : List (Term × Term) → Option Substitution
    | [] => some sub
    | (t1, t2) :: rest =>
        match unify (sub.apply t1) (sub.apply t2) with
        | .ok ns => go (sub.updateWith ns) rest
        | _ => none


/-! ## Tableau nodes (`tableau.py`) -/

/-- Salience record: an insertion-ordered mapping term → float. -/
abbrev SalMap := List (Term × Rat)

/-- Source `dict.get(k)` on a salience record. -/
def salGet (s : SalMap) (k : Term) : Option Rat :=
  (s.find? (fun kv => kv.1 = k)).map (·.2)

/-- Source `dict[k] = v` on a salience record (overwrite in place, else append). -/
def salSet (s : SalMap) (k : Term) (v : Rat) : SalMap :=
  if s.any (fun kv => kv.1 = k) then
    s.map (fun kv => if kv.1 = k then (k, v) else kv)
  else s ++ [(k, v)]

/-- Source `Tableau.salience_decay` (declared in the source, unused by the
embedded operations). -/
def salienceDecay : Rat := ⟨7, 10, by decide, by decide⟩

/-- Source `Tableau.witness_default_salience` — the source comment reads: "This is
the default salience value for created witnesses." -/
def witnessDefaultSalience : Rat := ⟨2, 5, by decide, by decide⟩

/-- Source `Tableau.recall_salience` — "The value an entity should have when it's
currently in context." -/
def recallSalience : Rat := 1

/-- The own fields of one tableau node (after `__post_init__`). -/
structure NodeData where
  formulas : List Formula
  entities : List Term
  substitution : Substitution
  dispatched : List Formula
  saliences : SalMap
deriving DecidableEq, Repr

/-- A tableau node together with its (upward-owned) parent chain: `node` is
the Python object's own fields and `ancestors` lists the fields of
`parent`, `parent.parent`, … in order.  Python's `parent` reference is
recovered by `Tableau.parent`. -/
structure Tableau where
  node : NodeData
  ancestors : List NodeData
deriving DecidableEq, Repr

namespace Tableau

/-- The whole branch, this node first (the traversal order of
`branch_formulas` etc.). -/
def chain (t : Tableau) : List NodeData :=
  t.node :: t.ancestors

/-- The `parent` reference (`None` at the root). -/
def parent (t : Tableau) : Option Tableau :=
  match t.ancestors with
  | [] => none
  | d :: ds => some ⟨d, ds⟩

/-- Source `branch_formulas`: this node's formulas, then the parent branch. -/
def branchFormulas (t : Tableau) : List Formula :=
  t.chain.flatMap (fun nd => nd.formulas)

/-- Source `branch_entities`. -/
def branchEntities (t : Tableau) : List Term :=
  t.chain.flatMap (fun nd => nd.entities)

/-- Source `branch_dispatched_formulas`. -/
def branchDispatched (t : Tableau) : List Formula :=
  t.chain.flatMap (fun nd => nd.dispatched)

/-- Source `literals` of one node: the formulas that are literals. -/
def nodeLiterals (nd : NodeData) : List Formula :=
  nd.formulas.filter Formula.isLiteral

/-- Source `branch_literals`. -/
def branchLiterals (t : Tableau) : List Formula :=
  t.chain.flatMap nodeLiterals

end Tableau

/-- Source `Tableau(formulas, entities, parent, substitution, dispatched_formulas,
saliences)` followed by `__post_init__` (`tableau.py` lines 38–63):

* a `None` substitution is replaced by a copy of the parent's substitution
  (or a fresh empty one at the root);
* dispatched formulas are deduplicated keeping the LAST occurrence
  (an entry is skipped when it re-occurs later in the list) and dropping
  entries already dispatched on the parent's branch;
* every entity missing from the salience record is assigned
  `recall_salience`; afterwards the parent node's own salience entries are
  inherited for keys still missing. -/
def mkTableau (formulas : List Formula) (entities : List Term)
    (parent : Option Tableau) (sub : Option Substitution)
    (dispatched : List Formula) (saliences : SalMap) : Tableau :=
  let psub : Substitution :=
    match parent with
    | some p => p.node.substitution
    | none => Substitution.empty
  let pdisp : List Formula :=
    match parent with
    | some p => p.branchDispatched
    | none => []
  let disp := dedupDisp pdisp dispatched
  let sal1 := entities.foldl
    (fun acc e =>
      match salGet acc e with
      | none => salSet acc e recallSalience
      | some _ => acc) saliences
  let sal2 :=
    match parent with
    | some p =>
        p.node.saliences.foldl
          (fun acc kv =>
            match salGet acc kv.1 with
            | none => salSet acc kv.1 kv.2
            | some _ => acc) sal1
    | none => sal1
  { node := ⟨formulas, entities, sub.getD psub, disp, sal2⟩
    ancestors := match parent with | some p => p.chain | none => [] }
where
  /-- The dispatched-formula dedup loop: skip `x` when it occurs again later
  (list membership compares the stored elements on the left) or when it is
  already dispatched on the parent branch. -/
  dedupDisp (pdisp : List Formula) : List Formula → List Formula
    | [] => []
    | x :: xs =>
        if pyListMem x xs then dedupDisp pdisp xs
        else if pyListMem x pdisp then dedupDisp pdisp xs
        else x :: dedupDisp pdisp xs

/-- Python exceptions that escape the embedded operations. -/
inductive PyErr where
  | notImplemented
  | attributeError
deriving DecidableEq, Repr

/-- The salience-merging loop of `Tableau.merge` (lines 139–147): fold all
nodes' salience records left to right, keeping the per-key maximum. -/
def mergeSaliences (ts : List Tableau) : SalMap :=
  ts.foldl
    (fun acc t =>
      t.node.saliences.foldl
        (fun acc kv =>
          match salGet acc kv.1 with
          | none => salSet acc kv.1 kv.2
          | some ex => salSet acc kv.1 (max ex kv.2)) acc) []

/-- Source `Tableau.get_unique_tableau(leaf)` (lines 180–194): strip from `leaf`
every formula/entity already visible on `self`'s branch and rebuild the
node — crucially WITHOUT passing the substitution, so `__post_init__`
replaces it by a copy of the parent's. -/
def Tableau.getUniqueTableau (self leaf : Tableau) : Tableau :=
  let formulas := pyDiffUpdateList (pySetOfList leaf.node.formulas) self.branchFormulas
  let entities := tSetDiffList (tSetOfList leaf.node.entities) self.branchEntities
  mkTableau formulas entities leaf.parent none leaf.node.dispatched leaf.node.saliences

/-- Source `Tableau.merge(*tableaus, parent=parent)` (lines 115–160): union the
local formula/entity sets, merge the substitutions (a merge failure adds
the falsity literal and resets the substitution; an uncaught
`NotImplementedError` escapes), concatenate dispatched formulas, max-merge
saliences, build the node, and when a parent is given normalize the result
through `parent.get_unique_tableau`. -/
def Tableau.merge (ts : List Tableau) (parent : Option Tableau) :
    Except PyErr Tableau :=
  match ts with
  | [] => .ok (mkTableau [] [] parent none [] [])
  | _ =>
    let formulas0 := pySetOfList (ts.flatMap (fun t => t.node.formulas))
    let entities := tSetOfList (ts.flatMap (fun t => t.node.entities))
    let dispatched := ts.flatMap (fun t => t.node.dispatched)
    let msal := mergeSaliences ts
    let finish := fun (formulas : List Formula) (msub : Substitution) =>
      let merged := mkTableau formulas entities parent (some msub) dispatched msal
      match parent with
      | none => merged
      | some p => p.getUniqueTableau merged
    match Substitution.merge (ts.map (fun t => t.node.substitution)) with
    | .exc => .error .notImplemented
    | .fail => .ok (finish (pySetInsert formulas0 falseF) Substitution.empty)
    | .ok s => .ok (finish formulas0 s)

/-- Source `Tableau.__hash__` (lines 171–178): the hash key is built from the
formulas sorted by canonical string, the sorted entity strings, and the
sorted strings of the salience items; `Tableau.__eq__` is hash equality.
Sorted sequences compare equal exactly when the underlying multisets do,
so the key is modelled as a triple of multisets. -/
def Tableau.key (t : Tableau) :
    Multiset String × Multiset String × Multiset (String × Rat) :=
  (↑(t.node.formulas.map Formula.str),
   ↑(t.node.entities.map Term.str),
   ↑(t.node.saliences.map (fun kv => (kv.1.str, kv.2))))

/-- CPython set identity for `Tableau` elements: equal hashes, then
`Tableau.__eq__` — which is itself hash equality, so set identity is key
equality. -/
def tabMatch (a b : Tableau) : Bool :=
  decide (a.key = b.key)

/-- Source `set(tableaus)`. -/
def tabSetOfList (l : List Tableau) : List Tableau :=
  dedupBy tabMatch l

/-- Source `set.add(tableau)`. -/
def tabSetInsert (s : List Tableau) (t : Tableau) : List Tableau :=
  if s.any (fun e => tabMatch e t) then s else s ++ [t]


/-! ## Non-branching calculus rules (`calculus.py`) -/

/-- Source `.left`/`.right` of an `Eq` (junk elsewhere, used behind `isEq`
guards). -/
def Formula.eqLeft : Formula → Term
  | .eqF l _ => l
  | _ => ⟨.const, "", ""⟩

/-- Source `.right` of an `Eq`. -/
def Formula.eqRight : Formula → Term
  | .eqF _ r => r
  | _ => ⟨.const, "", ""⟩

/-- Source `try_and_elim` (lines 131–145): both conjuncts of every local
conjunction, minus the branch (set-against-set difference), wrapped into a
child node when non-empty. -/
def tryAndElim (t : Tableau) : Option Tableau :=
  let conjs := t.node.formulas.filter Formula.isAnd
  let outs := pyDiffSetSet
    (pySetOfList (conjs.flatMap (fun c => [c.andLeft, c.andRight])))
    (pySetOfList t.branchFormulas)
  if outs.isEmpty then none else some (mkTableau outs [] (some t) none [] [])

/-- Source `try_double_negation` (lines 148–164): one level of double negation
stripped from every local `Not(Not(f))`, minus the branch. -/
def tryDoubleNegation (t : Tableau) : Option Tableau :=
  let dn := t.node.formulas.filter (fun f => f.isNot && f.inner.isNot)
  let outs := pyDiffUpdateList
    (pySetOfList (dn.map (fun f => f.inner.inner)))
    t.branchFormulas
  if outs.isEmpty then none else some (mkTableau outs [] (some t) none [] [])

/-- Source `try_forall_elim` (lines 167–186): every `Forall` on the branch applied
to every branch entity of the quantifier's sort, minus the branch. -/
def tryForallElim (t : Tableau) : Option Tableau :=
  let axFs := t.branchFormulas.filter Formula.isForall
  let outs0 := axFs.flatMap (fun a =>
    match a with
    | .forallF v b =>
        (t.branchEntities.filter (fun e => e.sort = v.sort)).map
          (fun e => substF v e b)
    | _ => [])
  let outs := pyDiffUpdateList (pySetOfList outs0) t.branchFormulas
  if outs.isEmpty then none else some (mkTableau outs [] (some t) none [] [])

/-- Source `Term.__eq__` invoked with a `Formula` as the other operand (dynamic
typing): `isinstance(obj, type(self))` fails for a formula, so the
comparison is always `False`. -/
def termEqFormula (_ : Term) (_ : Formula) : Bool := false

/-- The per-axiom production of `try_focused_forall_elim`: the entities of
the axiom's sort, filtered by line 205 of the source —
`axiom.unfocused_partial(term) in tableau.branch_entities`, which searches
the instantiated guard FORMULA in the list of branch ENTITIES, each
comparison being `Term.__eq__(entity, formula)` — mapped over the focused
body. -/
def focusedForallOuts (t : Tableau) (a : Formula) : List Formula :=
  match a with
  | .forallFF v g b =>
      let ents := t.branchEntities.filter (fun e => e.sort = v.sort)
      let ents := ents.filter (fun e =>
        t.branchEntities.any (fun ent => termEqFormula ent (substF v e g)))
      ents.map (fun e => substF v e b)
  | _ => []

/-- Source `try_focused_forall_elim` (lines 189–213). -/
def tryFocusedForallElim (t : Tableau) : Option Tableau :=
  let axFs := t.branchFormulas.filter Formula.isForallF
  let outs0 := axFs.flatMap (focusedForallOuts t)
  let outs := pyDiffUpdateList (pySetOfList outs0) t.branchFormulas
  if outs.isEmpty then none else some (mkTableau outs [] (some t) none [] [])

/-- Source `remove_double_negations` (lines 216–221). -/
def removeDoubleNegations (f : Formula) : Formula :=
  if f.isNot && f.inner.isNot then f.inner.inner else f

/-- Source `is_branch_consistent` (lines 103–128), returning `True` when the
branch is OPEN.  The first three checks range over the whole branch; the
two equality checks range over `tableau.formulas` — the node's LOCAL
formulas only, exactly as in the source.  (The `formula.formula is S.True_`
identity test is modelled structurally: the module-level singleton is the
only `T` object the repository ever constructs.) -/
def isBranchConsistent (t : Tableau) : Bool :=
  let bf := t.branchFormulas
  if pyListMem falseF bf then false
  else if bf.any (fun f => f.isNot && f.inner = trueF) then false
  else if bf.any (fun f => f.isNot && pyListMem f.inner bf) then false
  else if t.node.formulas.any (fun f =>
      (f.isEq && !decide (f.eqLeft = f.eqRight)) ||
      (f.isNot && f.inner.isEq && decide (f.inner.eqLeft = f.inner.eqRight)))
    then false
  else true

/-! ## Event-uniqueness axioms (`simple_event_semantics/syntax.py`)

`Concepts.agent` and `Concepts.type_` are module-level singletons
`Predicate("agent", 2)` / `Predicate("type", 2)`; the identity test
`a.predicate is Concepts.agent` is modelled as a name+arity match, faithful
to the repository where every such literal is built through the
singleton. -/

/-- First argument of an applied predicate (`literal.args[0]`). -/
def Formula.eventArg : Formula → Term
  | .atom _ (e :: _) => e
  | _ => ⟨.const, "", ""⟩

/-- Source `Axioms.single_agent_events`: walk the positive `agent` literals of the
branch; on the first repeated event constant return a child containing the
falsity literal, otherwise return the node unchanged. -/
def singleAgentEvents (t : Tableau) : Tableau :=
  let atoms := t.branchLiterals.filter Formula.isAtomP
  let agents := atoms.filter (fun a =>
    match a with
    | .atom n args => n = "agent" && args.length = 2
    | _ => false)
  go [] agents
where
  go (seen : List Term) : List Formula → Tableau
    | [] => t
    | a :: rest =>
        if seen.contains a.eventArg then mkTableau [falseF] [] (some t) none [] []
        else go (seen ++ [a.eventArg]) rest

/-- Source `Axioms.single_type_events`: identical, over the `type` literals. -/
def singleTypeEvents (t : Tableau) : Tableau :=
  let atoms := t.branchLiterals.filter Formula.isAtomP
  let types := atoms.filter (fun a =>
    match a with
    | .atom n args => n = "type" && args.length = 2
    | _ => false)
  go [] types
where
  go (seen : List Term) : List Formula → Tableau
    | [] => t
    | a :: rest =>
        if seen.contains a.eventArg then mkTableau [falseF] [] (some t) none [] []
        else go (seen ++ [a.eventArg]) rest


/-! ## Branching calculus rules (`calculus.py`)

Fresh witness constants are drawn from the process-wide counter
`Constant._id` (auto-names `_C0`, `_C1`, …); the counter is threaded
explicitly as a `Nat`.  The recursion of `try_branching_rules` and
`generate_models` need not terminate (witness generation can feed new
quantifier instances), so both take a fuel parameter; `Res.fuelOut` means
the chosen unrolling bound was reached, never a result of the program. -/

/-- Source `itertools.product(*factors)`, first factor slowest. -/
def cartProduct : List (List α) → List (List α)
  | [] => [[]]
  | xs :: rest => xs.flatMap (fun x => (cartProduct rest).map (fun c => x :: c))

/-- CPython identity of two branch TUPLES inside a set (`try_or_elim`
deduplicates `tuple(sorted(branch, key=str))` values): equal component
hash keys and componentwise `==` with the stored tuple's components on the
left. -/
def tupMatch (a b : List Formula) : Bool :=
  a.length = b.length && a.map Formula.str = b.map Formula.str &&
    (List.zip a b).all (fun p => pyEq p.1 p.2)

/-- Source `sorted(branch_set, key=S.Formula.__str__)` — a stable sort by
canonical string. -/
def sortByStr (l : List Formula) : List Formula :=
  l.mergeSort (fun a b => a.str ≤ b.str)

/-- The local disjunction-shaped formulas `try_or_elim` operates on:
`isinstance(f, Not) and isinstance(f.formula, And)`. -/
def orDisjs (t : Tableau) : List Formula :=
  t.node.formulas.filter (fun f => f.isNot && f.inner.isAnd)

/-- The disjunct pairs of `try_or_elim`: `(Not(left), Not(right))` with one
double negation stripped from each side. -/
def orPairs (t : Tableau) : List (Formula × Formula) :=
  (orDisjs t).map (fun f =>
    (removeDoubleNegations (.notF f.inner.andLeft),
     removeDoubleNegations (.notF f.inner.andRight)))

/-- The candidate branch sets of `try_or_elim`: the cartesian product over
all disjunct pairs, each combination turned into a set and stripped of
branch formulas, empty combinations dropped. -/
def orBranchSets (t : Tableau) : List (List Formula) :=
  (((cartProduct ((orPairs t).map (fun p => [p.1, p.2]))).map
    (fun c => pyDiffUpdateList (pySetOfList c) t.branchFormulas)).filter
    (fun b => b.length > 0))

/-- The deduplicated sorted branch tuples of `try_or_elim`
(`set(map(lambda branch_set: tuple(sorted(branch_set, key=str)), …))`). -/
def orTuples (t : Tableau) : List (List Formula) :=
  dedupBy tupMatch ((orBranchSets t).map sortByStr)

/-- Source `try_or_elim` (lines 224–261): for every local formula of shape
`Not(And(l, r))` form the disjunct pair `(−l, −r)` with one double
negation stripped; take the cartesian product over all such pairs, remove
branch formulas from each combination, drop empty combinations,
deduplicate the sorted tuples, and wrap each into a child node. -/
def tryOrElim (t : Tableau) : Option (List Tableau) :=
  if (orTuples t).isEmpty then none
  else some ((orTuples t).map (fun b => mkTableau b [] (some t) none [] []))

/-- The `.sort` attribute read from a quantified formula in
`try_exists_elim` / `try_focused_exists_elim`
(`S.Constant(quantified_formula.sort)`): only the sugar classes `Exists`
and `ExistsF` set `self.sort`; on a bare `Not` the access raises
`AttributeError`. -/
def qfSort : Formula → Option String
  | .existsF v _ => some v.sort
  | .existsFF v _ _ => some v.sort
  | _ => none

/-- Source `try_exists_elim` (lines 264–313): for every local `Not(Forall(x, f))`,
one rootless candidate node per branch entity of the quantifier's sort
asserting the double-negation-stripped `Not(f(e))`, plus one candidate
introducing a fresh witness constant with the analogous formula; the
produced branches are the parent-merged cartesian product over all such
quantified formulas. -/
def tryExistsElim (t : Tableau) (ctr : Nat) :
    Except PyErr (Option (List Tableau) × Nat) := do
  let qfs := t.node.formulas.filter (fun f => f.isNot && f.inner.isForall)
  let (allSub, ctr) ← goQfs qfs [] ctr
  if allSub.isEmpty then return (none, ctr)
  let outs0 ← (cartProduct allSub).mapM (fun ts => Tableau.merge ts (some t))
  let outs := tabSetOfList outs0
  if outs.isEmpty then return (none, ctr) else return (some outs, ctr)
where
  goQfs : List Formula → List (List Tableau) → Nat →
      Except PyErr (List (List Tableau) × Nat)
    | [], acc, c => .ok (acc, c)
    | qf :: rest, acc, c =>
        match qf.inner with
        | .forallF v b =>
            let ents := t.branchEntities.filter (fun e => e.sort = v.sort)
            let subBranches := tabSetOfList (ents.map (fun e =>
              mkTableau [removeDoubleNegations (.notF (substF v e b))]
                [] none none [] []))
            match qfSort qf with
            | none => .error .attributeError
            | some srt =>
                let w : Term := ⟨.const, srt, "_C" ++ toString c⟩
                let wf := removeDoubleNegations (.notF (substF v w b))
                let subBranches :=
                  tabSetInsert subBranches (mkTableau [wf] [w] none none [] [])
                goQfs rest (acc ++ [subBranches]) (c + 1)
        | _ => goQfs rest acc c

/-- Source `try_focused_exists_elim` (lines 316–369): as `try_exists_elim` over
local `Not(ForallF(x, g, f))` formulas, with candidate entities further
required to have their instantiated unfocused guard present among the
branch formulas (a Python LIST membership, stored element compared on the
left), and the witness node asserting both the instantiated guard and the
double-negation-stripped negated focused part. -/
def tryFocusedExistsElim (t : Tableau) (ctr : Nat) :
    Except PyErr (Option (List Tableau) × Nat) := do
  let qfs := t.node.formulas.filter (fun f => f.isNot && f.inner.isForallF)
  let (allSub, ctr) ← goQfs qfs [] ctr
  if allSub.isEmpty then return (none, ctr)
  let outs0 ← (cartProduct allSub).mapM (fun ts => Tableau.merge ts (some t))
  let outs := tabSetOfList outs0
  if outs.isEmpty then return (none, ctr) else return (some outs, ctr)
where
  goQfs : List Formula → List (List Tableau) → Nat →
      Except PyErr (List (List Tableau) × Nat)
    | [], acc, c => .ok (acc, c)
    | qf :: rest, acc, c =>
        match qf.inner with
        | .forallFF v g b =>
            let ents := t.branchEntities.filter (fun e => e.sort = v.sort)
            let ents := ents.filter (fun e => pyListMem (substF v e g) t.branchFormulas)
            let subBranches := tabSetOfList (ents.map (fun e =>
              mkTableau [removeDoubleNegations (.notF (substF v e b))]
                [] none none [] []))
            match qfSort qf with
            | none => .error .attributeError
            | some srt =>
                let w : Term := ⟨.const, srt, "_C" ++ toString c⟩
                let wfs := [removeDoubleNegations (substF v w g),
                            removeDoubleNegations (.notF (substF v w b))]
                let subBranches :=
                  tabSetInsert subBranches (mkTableau wfs [w] none none [] [])
                goQfs rest (acc ++ [subBranches]) (c + 1)
        | _ => goQfs rest acc c

/-- Results of the fueled recursive procedures: a value, an escaped Python
exception, or fuel exhaustion (the unrolling bound was hit — not a
behaviour of the program). -/
inductive Res (α : Type) where
  | ok (a : α)
  | exc (e : PyErr)
  | fuelOut
deriving DecidableEq, Repr

/-- The `for tableau_ in next_level` loop of `try_branching_rules`
(lines 93–99): recursively expand each next-level node (through the
supplied recursion `f`), merging a non-`None` recursive result back onto
the current node, and collect everything into a set. -/
def branchLoop (f : Tableau → Nat → Res (Option (List Tableau) × Nat))
    (t : Tableau) :
    List Tableau → List Tableau → Nat → Res (Option (List Tableau) × Nat)
  | [], out, ctr => .ok (some out, ctr)
  | tb :: rest, out, ctr =>
      match f tb ctr with
      | .fuelOut => .fuelOut
      | .exc e => .exc e
      | .ok (maximal, ctr) =>
          match maximal with
          | some ms =>
              match Tableau.merge (tb :: ms) (some t) with
              | .error e => .exc e
              | .ok m => branchLoop f t rest (tabSetInsert out m) ctr
          | none => branchLoop f t rest (tabSetInsert out tb) ctr

/-- Source `try_branching_rules` (lines 74–100): apply `try_or_elim`,
`try_exists_elim`, `try_focused_exists_elim`; if none produced output
return `None`; otherwise parent-merge the cartesian product of the outputs
into the next level and recursively expand it (`branchLoop`).  The
returned set is non-empty whenever rules applied. -/
def tryBranchingRules : Nat → Tableau → Nat → Res (Option (List Tableau) × Nat)
  | 0, _, _ => .fuelOut
  | fuel + 1, t, ctr =>
      let orRes := tryOrElim t
      match tryExistsElim t ctr with
      | .error e => .exc e
      | .ok (exRes, ctr) =>
          match tryFocusedExistsElim t ctr with
          | .error e => .exc e
          | .ok (fexRes, ctr) =>
              let outputs := [orRes, exRes, fexRes].filterMap id
              if outputs.isEmpty then .ok (none, ctr)
              else
                match (cartProduct outputs).mapM (fun c => Tableau.merge c (some t)) with
                | .error e => .exc e
                | .ok nl => branchLoop (fun tb c => tryBranchingRules fuel tb c) t nl [] ctr

/-- The tuple of non-branching rules of `try_non_branching_rules`, in
source order. -/
def nbRules : List (Tableau → Option Tableau) :=
  [tryAndElim, tryDoubleNegation, tryForallElim, tryFocusedForallElim]

/-- The `while outputs` loop of `try_non_branching_rules` (lines 62–70):
append the previous merged output to the pending outputs, merge them all
onto the ORIGINAL node, and re-apply the rules to the merged node. -/
def nbLoop (t : Tableau) : Nat → List Tableau → Option Tableau → Res (Option Tableau)
  | 0, _, _ => .fuelOut
  | fuel + 1, outputs, output =>
      match outputs with
      | [] => .ok output
      | _ =>
          let outs2 := match output with
            | some o => outputs ++ [o]
            | none => outputs
          match Tableau.merge outs2 (some t) with
          | .error e => .exc e
          | .ok o2 => nbLoop t fuel (nbRules.filterMap (fun r => r o2)) (some o2)

/-- Source `try_non_branching_rules` (lines 48–71): run the four non-branching
rules to a fixpoint, merging every round onto the input node; `None` when
no rule applied to the initial node. -/
def tryNonBranchingRules (t : Tableau) (fuel : Nat) : Res (Option Tableau) :=
  nbLoop t fuel (nbRules.filterMap (fun r => r t)) none

/-- The `for branch in filter(is_branch_consistent, branches)` loop of
`generate_models` (lines 38–44): recursively generate models of each
consistent branch (through the supplied recursion `f`), yielding the
branch itself when the recursion yields nothing. -/
def genLoop (f : Tableau → Nat → Res (List Tableau × Nat)) :
    List Tableau → List Tableau → Nat → Res (List Tableau × Nat)
  | [], acc, ctr => .ok (acc, ctr)
  | b :: rest, acc, ctr =>
      match f b ctr with
      | .fuelOut => .fuelOut
      | .exc e => .exc e
      | .ok (outs, ctr) =>
          genLoop f rest (acc ++ (if outs.isEmpty then [b] else outs)) ctr

/-- Source `generate_models(tableau, axioms)` (lines 13–45), exactly as written:

1. line 18 computes `try_non_branching_rules(tableau)` (its exceptions and
   divergence propagate) — and line 20 immediately overwrites the variable
   with the input node, discarding the fixpoint;
2. `if maximal_non_branching:` is always true (a `Tableau` defines no
   `__bool__`/`__len__`), so the branching base becomes
   `merge(tableau, tableau, parent=tableau)`;
3. the axioms are invoked once on that node and merged onto it with the
   input node as parent;
4. branching rules run on the result; with no branches the node is yielded
   when consistent, otherwise each consistent branch is expanded
   recursively, the branch itself standing in when the recursion produces
   nothing. -/
def generateModels : Nat → Tableau → List (Tableau → Tableau) → Nat →
    Res (List Tableau × Nat)
  | 0, _, _, _ => .fuelOut
  | fuel + 1, t, axFns, ctr =>
      match tryNonBranchingRules t (fuel + 1) with
      | .fuelOut => .fuelOut
      | .exc e => .exc e
      | .ok _discardedFixpoint =>
          match Tableau.merge [t, t] (some t) with
          | .error e => .exc e
          | .ok mnb =>
              match Tableau.merge (mnb :: axFns.map (fun ax => ax mnb)) (some t) with
              | .error e => .exc e
              | .ok root =>
                  match tryBranchingRules (fuel + 1) root ctr with
                  | .fuelOut => .fuelOut
                  | .exc e => .exc e
                  | .ok (branches, ctr) =>
                      match branches with
                      | none =>
                          .ok ((if isBranchConsistent root then [root] else []), ctr)
                      | some brs =>
                          genLoop (fun b c => generateModels fuel b axFns c)
                            (brs.filter isBranchConsistent) [] ctr


/-! ## Concrete inputs used by the evaluation theorems -/

/-- Extract the payload of a successful `Tableau.merge`. -/
def okOf : Except PyErr Tableau → Option Tableau
  | .ok t => some t
  | .error _ => none

/-- Extract the escaped exception of a failed `Tableau.merge`. -/
def excOf : Except PyErr Tableau → Option PyErr
  | .error e => some e
  | .ok _ => none

/-- A sample sort name. -/
def sortS : String := "S"

/-- Named constant `a` (Python `Constant(S, "a")`). -/
def cA : Term := ⟨.const, sortS, "a"⟩

/-- Named constant `b`. -/
def cB : Term := ⟨.const, sortS, "b"⟩

/-- Named constant `c1`. -/
def cC1 : Term := ⟨.const, sortS, "c1"⟩

/-- Named constant `c2`. -/
def cC2 : Term := ⟨.const, sortS, "c2"⟩

/-- Named constant `e` (same sort and name as the witness `wE`). -/
def cE : Term := ⟨.const, sortS, "e"⟩

/-- Witness constant `e` (`EConstant(S, "e")`) — prints exactly like `cE`
but is a different Python class, so the two are not `__eq__`. -/
def wE : Term := ⟨.econst, sortS, "e"⟩

/-- A witness constant used in substitution examples. -/
def wW : Term := ⟨.econst, sortS, "w"⟩

/-- Variable `x`. -/
def vX : Term := ⟨.var, sortS, "x"⟩

/-- Atom `p(a)`. -/
def pA : Formula := .atom "p" [cA]

/-- Atom `p(b)`. -/
def pB : Formula := .atom "p" [cB]

/-- C1 input: a root node whose only formula is the conjunction
`And(p(a), p(b))`. -/
def t1in : Tableau := mkTableau [.andF pA pB] [] none none [] []

/-- The non-branching fixpoint of `t1in` (what line 18 of `calculus.py`
computes and line 20 throws away). -/
def c1Fix : Option Tableau :=
  match tryNonBranchingRules t1in 5 with
  | .ok o => o
  | _ => none

/-- The models `generate_models(t1in, [])` yields (fuel 5 suffices: the
run terminates with no branching). -/
def c1Models : List Tableau :=
  match generateModels 5 t1in [] 0 with
  | .ok (l, _) => l
  | _ => []

/-- C2 inputs: root nodes whose substitutions bind the same variable to the
two distinct named constants `c1`/`c2` … -/
def t2a : Tableau := mkTableau [] [] none (some [(vX, cC1)]) [] []

/-- Second node of the conflicting pair. -/
def t2b : Tableau := mkTableau [] [] none (some [(vX, cC2)]) [] []

/-- C2 comparison input: the same conflict with a witness constant on one
side (this one hits the `AssertionError` path that IS caught). -/
def t2c : Tableau := mkTableau [] [] none (some [(vX, wW)]) [] []

/-- Second node of the caught pair. -/
def t2d : Tableau := mkTableau [] [] none (some [(vX, cC1)]) [] []

/-- C3 counterexample: parent node carrying `Eq(c1, c2)`. -/
def t3parent : Tableau := mkTableau [.eqF cC1 cC2] [] none none [] []

/-- C3 counterexample: a child of `t3parent` with no local formulas — the
branch contains the distinct-constant equality, the node does not. -/
def t3child : Tableau := mkTableau [] [] (some t3parent) none [] []

/-- An event constant for the event-uniqueness inputs. -/
def evE1 : Term := ⟨.const, "Event", "e1"⟩

/-- An agent constant. -/
def agA1 : Term := ⟨.const, "agent", "a1"⟩

/-- Another agent constant. -/
def agA2 : Term := ⟨.const, "agent", "a2"⟩

/-- A node asserting two distinct agent literals on the same event. -/
def t3dup : Tableau :=
  mkTableau [.atom "agent" [evE1, agA1], .atom "agent" [evE1, agA2]] [] none none [] []

/-- A node asserting two distinct type literals on the same event. -/
def t3dupT : Tableau :=
  mkTableau [.atom "type" [evE1, agA1], .atom "type" [evE1, agA2]] [] none none [] []

/-- C6 failing input: `p` applied to the named constant `e`. -/
def f6u : Formula := .atom "p" [cE]

/-- C6 failing input: `p` applied to the like-named witness `e` — same
canonical string as `f6u`, not `__eq__` to it. -/
def f6w : Formula := .atom "p" [wE]

/-- C6 failing input: focused forall with guard and body `p(S(e))`. -/
def f6a : Formula := .forallFF vX f6u f6u

/-- C6 failing input: focused forall with guard `p` of the WITNESS `e` and
body `p(S(e))` — prints identically to `f6a`; by the source's
`FocusQuantifiedFormula.__eq__` (which compares self's unfocused part
against o2's focused part) `f6a == f6b` holds but `f6b == f6a` fails. -/
def f6b : Formula := .forallFF vX f6w f6u

/-- C6: an empty root to merge under. -/
def t6parent : Tableau := mkTableau [] [] none none [] []

/-- C6: node carrying `f6a`. -/
def t6a : Tableau := mkTableau [f6a] [] none none [] []

/-- C6: node carrying `f6b`. -/
def t6b : Tableau := mkTableau [f6b] [] none none [] []

/-- C7 input: root node with entity `a` and the formula
`Exists x. p(x)` (stored as `Not(Forall(x, Not p(x)))`). -/
def t7in : Tableau := mkTableau [.existsF vX (.atom "p" [vX])] [cA] none none [] []

/-- The branches produced by `try_exists_elim` on `t7in` with the constant
counter at 0. -/
def c7Branches : List Tableau :=
  match tryExistsElim t7in 0 with
  | .ok (some l, _) => l
  | _ => []

/-- The fresh witness constant `_C0` that `try_exists_elim` creates on
`t7in`. -/
def w7 : Term := ⟨.const, sortS, "_C0"⟩

/-- C8 witness input: a root with the single disjunction `Or(p(a), p(b))`. -/
def t8in : Tableau := mkTableau [.orF pA pB] [] none none [] []

/-- C9 counterexample: the sugared disjunction. -/
def c9or : Formula := .orF pA pB

/-- C9 counterexample: its independently built De Morgan encoding. -/
def c9not : Formula := .notF (.andF (.notF pA) (.notF pB))

/-- C10 witness input: a parent with a non-trivial substitution. -/
def t10parent : Tableau := mkTableau [pA] [] none (some [(vX, cC1)]) [] []

/-- C10 witness input: a node to merge, with its own conflicting-free
binding that the merge result must discard. -/
def t10a : Tableau := mkTableau [pB] [] none (some [(vX, cC2)]) [] []


/-! ## Claim theorems — concrete evaluations -/

/-- C1 (code bug).  The claim says `generate_models` first runs the
non-branching rules (with the axioms) to a fixpoint and computes branching
productions on the input node merged with everything that fixpoint
produced.  Evaluating the embedded source on the root
`{And(p(a), p(b))}` with no axioms shows otherwise: the fixpoint (line 18)
does produce the conjuncts `p(a), p(b)`, but line 20 overwrites the
variable with the input node, so the node branching is computed on — and
the single yielded model — has NO local formulas and its branch still
lacks `p(a)`. -/
theorem c1_generate_models_discards_fixpoint :
    (c1Fix.map (fun f => f.node.formulas) = some [pA, pB]) ∧
    (c1Models.map (fun m => m.node.formulas) = [[]]) ∧
    (c1Models.map Tableau.branchFormulas = [[Formula.andF pA pB]]) ∧
    (c1Models.map (fun m => pyListMem pA m.branchFormulas) = [false]) := by
  decide

/-- C2 (code bug).  The claim says a `Tableau.merge` whose input
substitutions conflict — including on two distinct named constants — never
raises and injects the falsity literal instead.  Evaluating the embedded
source: merging nodes whose substitutions bind `x` to the distinct named
constants `c1`/`c2` raises `NotImplementedError` (uncaught by
`Substitution.merge`, which only catches `AssertionError`), while the
like conflict against a witness constant does complete with falsity
injected — the degradation the claim describes happens only on the
`AssertionError` path. -/
theorem c2_merge_raises_on_constant_conflict :
    (excOf (Tableau.merge [t2a, t2b] none) = some .notImplemented) ∧
    ((okOf (Tableau.merge [t2c, t2d] none)).map
        (fun m => pyListMem falseF m.node.formulas) = some true) := by
  decide

/-- C4 (code bug).  The claim says a variable or witness unifies with
any same-sorted term, returning the binding, and that two distinct named
constants fail to unify, the failure being reported to the caller.
Evaluating `Substitution._unify` as written: the misplaced assertion
(`assert isinstance(term1, Constant) and isinstance(term2, Constant)`)
fires BEFORE the variable/witness branches, so unifying the variable `x`
with the constant `c1` raises `AssertionError` instead of returning
`{x ↦ c1}` (and `most_general_unifier` therefore reports `None` for the
trivially unifiable pair), while two distinct named constants fall through
to `NotImplementedError`; identical terms still unify with the empty
substitution. -/
theorem c4_unify_dead_variable_branches :
    (unify vX cC1 = .assertErr) ∧
    (unify wW cC1 = .assertErr) ∧
    (unify cC1 cC2 = .notImplErr) ∧
    (unify cC1 cC1 = .ok Substitution.empty) ∧
    (mostGeneralUnifier [(vX, cC1)] = none) ∧
    (mostGeneralUnifier [(cC1, cC2)] = none) := by
  decide

/-- C6 (code bug).  The claim says the `Tableau.merge` formula set is
the union of the inputs minus the parent branch and that the merge result
is permutation-invariant.  `FocusQuantifiedFormula.__eq__`
(`syntax.py` lines 414–421) compares self's UNFOCUSED part against o2's
FOCUSED part, making formula equality asymmetric: with `f6a == f6b` but
not `f6b == f6a` (and equal canonical strings), merging `{f6a}` and
`{f6b}` under an empty parent keeps one formula in one argument order and
both in the other, so the two merge results differ even under the source's
own `Tableau.__eq__` (hash-key equality). -/
theorem c6_merge_not_commutative :
    (pyEq f6a f6b = true) ∧
    (pyEq f6b f6a = false) ∧
    (f6a.str = f6b.str) ∧
    ((okOf (Tableau.merge [t6a, t6b] (some t6parent))).map
        (fun m => m.node.formulas) = some [f6a]) ∧
    ((okOf (Tableau.merge [t6b, t6a] (some t6parent))).map
        (fun m => m.node.formulas) = some [f6b, f6a]) ∧
    ((okOf (Tableau.merge [t6a, t6b] (some t6parent))).map Tableau.key ≠
      (okOf (Tableau.merge [t6b, t6a] (some t6parent))).map Tableau.key) := by
  decide

/-- C7 (code bug).  The claim says exists-elimination always produces a
fresh-witness branch (true) whose witness salience is a default value
strictly lower than that of recalled entities.  The field
`witness_default_salience = 0.4` is documented in `tableau.py` as "the
default salience value for created witnesses", and it is indeed lower than
`recall_salience = 1.0` — but it is never used: `__post_init__` assigns
`recall_salience` to every new entity, so the witness `_C0` created on
`{Exists x. p(x)}` with recalled entity `a` ends up with salience `1.0`,
equal to (not lower than) the recalled entity's. -/
theorem c7_witness_gets_recall_salience :
    (witnessDefaultSalience < recallSalience) ∧
    ((c7Branches.filter (fun b => !b.node.entities.isEmpty)).length = 1) ∧
    (∃ b ∈ c7Branches,
      b.node.entities = [w7] ∧
      salGet b.node.saliences w7 = some recallSalience ∧
      salGet b.node.saliences w7 ≠ some witnessDefaultSalience ∧
      salGet b.node.saliences cA = some recallSalience) := by
  decide

/-- C3 (counterexample).  The claim says the closed-branch predicate
reports a branch closed whenever the BRANCH contains an equality of two
distinct named constants; but `is_branch_consistent` checks the equality
conditions over the node's LOCAL formulas only, so a child of a node
carrying `Eq(c1, c2)` is reported open although its branch contains the
distinct-constant equality (which on the parent itself is duly reported
closed). -/
theorem c3_counterexample_branch_eq_missed :
    (pyListMem (Formula.eqF cC1 cC2) t3child.branchFormulas = true) ∧
    (cC1.kind = .const ∧ cC2.kind = .const ∧ cC1 ≠ cC2) ∧
    (isBranchConsistent t3child = true) ∧
    (isBranchConsistent t3parent = false) := by
  decide

/-- C9 (counterexample).  The claim says two formulas are equal iff
their canonical strings match and that equal formulas have equal hash keys.
The sugared `Or(p(a), p(b))` compares `__eq__`-equal to its De Morgan
encoding `Not(And(Not p(a), Not p(b)))` while the two canonical strings —
which are the hash keys — differ. -/
theorem c9_counterexample_or_demorgan :
    (pyEq c9or c9not = true) ∧
    (pyEq c9not c9or = true) ∧
    (c9or.str ≠ c9not.str) := by
  decide


/-! ## Helper lemmas -/

theorem substT_self (v t : Term) : substT v v t = t := by
  unfold substT
  split <;> simp_all

theorem substT_map_self (v : Term) (args : List Term) :
    args.map (substT v v) = args := by
  induction args <;> simp [substT_self, *]

theorem substF_self (v : Term) (f : Formula) : substF v v f = f := by
  induction f with
  | atom n args => simp [substF, substT_map_self]
  | eqF l r => simp [substF, substT_self]
  | andF l r ihl ihr => simp [substF, ihl, ihr]
  | notF f ih => simp [substF, ih]
  | orF l r ihl ihr => simp [substF, ihl, ihr]
  | impF l r ihl ihr => simp [substF, ihl, ihr]
  | forallF w b ih => simp only [substF]; split <;> simp [ih]
  | forallFF w g b ihg ihb => simp only [substF]; split <;> simp [ihg, ihb]
  | existsF w b ih => simp only [substF]; split <;> simp [ih]
  | existsFF w g b ihg ihb => simp only [substF]; split <;> simp [ihg, ihb]

theorem any_termEqFormula_false (l : List Term) (f : Formula) :
    (l.any fun ent => termEqFormula ent f) = false := by
  induction l <;> simp [termEqFormula, *]

theorem data_append (a b : String) : (a ++ b).data = a.data ++ b.data := by
  cases a
  cases b
  rfl

theorem pyEq_falseF_refl : pyEq falseF falseF = true := by decide

theorem dedupBy_go_mem {r : α → α → Bool} :
    ∀ (l kept : List α) (x : α), x ∈ dedupBy.go r kept l → x ∈ l := by
  intro l
  induction l with
  | nil => intro kept x h; cases h
  | cons y ys ih =>
      intro kept x h
      unfold dedupBy.go at h
      split at h
      · exact List.mem_cons_of_mem _ (ih _ _ h)
      · rcases List.mem_cons.mp h with h | h
        · exact h ▸ List.mem_cons_self _ _
        · exact List.mem_cons_of_mem _ (ih _ _ h)

theorem dedupBy_mem {r : α → α → Bool} {l : List α} {x : α}
    (h : x ∈ dedupBy r l) : x ∈ l :=
  dedupBy_go_mem l [] x h

theorem dedupBy_go_length {r : α → α → Bool} :
    ∀ (l kept : List α), (dedupBy.go r kept l).length ≤ l.length := by
  intro l
  induction l with
  | nil => intro kept; simp [dedupBy.go]
  | cons y ys ih =>
      intro kept
      unfold dedupBy.go
      split
      · exact Nat.le_trans (ih _) (Nat.le_succ _)
      · simpa using ih (kept ++ [y])

theorem dedupBy_length {r : α → α → Bool} (l : List α) :
    (dedupBy r l).length ≤ l.length :=
  dedupBy_go_length l []

theorem dedupBy_go_kept_false {r : α → α → Bool} :
    ∀ (l kept : List α) (x : α), x ∈ dedupBy.go r kept l →
      ∀ k ∈ kept, r k x = false := by
  intro l
  induction l with
  | nil => intro kept x h; cases h
  | cons y ys ih =>
      intro kept x h k hk
      unfold dedupBy.go at h
      split at h
      · exact ih _ _ h k hk
      · next hany =>
          rcases List.mem_cons.mp h with h | h
          · subst h
            simp only [Bool.not_eq_true] at hany
            exact Bool.not_eq_true _ ▸ List.any_eq_false.mp hany k hk
          · exact ih _ _ h k (List.mem_append_left _ hk)

theorem dedupBy_go_pairwise {r : α → α → Bool} :
    ∀ (l kept : List α),
      (dedupBy.go r kept l).Pairwise (fun a b => r a b = false) := by
  intro l
  induction l with
  | nil => intro kept; simp [dedupBy.go]
  | cons y ys ih =>
      intro kept
      unfold dedupBy.go
      split
      · exact ih _
      · refine List.Pairwise.cons ?_ (ih _)
        intro b hb
        exact dedupBy_go_kept_false ys (kept ++ [y]) b hb y
          (List.mem_append_right _ (List.mem_singleton.mpr rfl))

theorem dedupBy_pairwise {r : α → α → Bool} (l : List α) :
    (dedupBy r l).Pairwise (fun a b => r a b = false) :=
  dedupBy_go_pairwise l []

theorem cartProduct_length (ls : List (List α)) :
    (cartProduct ls).length = (ls.map List.length).prod := by
  induction ls with
  | nil => rfl
  | cons xs rest ih =>
      simp only [cartProduct, List.length_flatMap, List.map_cons, List.prod_cons]
      induction xs with
      | nil => simp
      | cons x xs2 ihx =>
          simp only [List.map_cons, List.sum_cons, Function.comp_apply,
            List.length_map, List.length_cons] at ihx ⊢
          rw [ihx, ih]
          ring

theorem prod_const_two (l : List α) :
    (l.map (fun _ => (2 : Nat))).prod = 2 ^ l.length := by
  induction l with
  | nil => rfl
  | cons x xs ih => simp [ih, Nat.pow_succ, Nat.mul_comm]

/-! ## Claim theorems — universal statements -/

/-- C5 (code bug).  The claim says focused-forall-elimination emits the
instantiated focused body for exactly the entities whose instantiated
unfocused guard is on the branch.  Line 205 of `calculus.py` instead
searches the guard FORMULA in `tableau.branch_entities` — a list of
TERMS — and `Term.__eq__` against a formula is always false, so the
entity filter is empty and `try_focused_forall_elim` returns `None` on
EVERY node (its sibling `try_focused_exists_elim` correctly searches
`branch_formulas`). -/
theorem c5_focused_forall_never_fires (t : Tableau) :
    tryFocusedForallElim t = none := by
  have h1 : ∀ a, focusedForallOuts t a = [] := by
    intro a
    cases a <;> simp [focusedForallOuts, termEqFormula]
  have h2 : ∀ (l : List Formula), l.flatMap (focusedForallOuts t) = [] := by
    intro l
    induction l with
    | nil => rfl
    | cons a rest ih => simp [List.flatMap_cons, h1, ih]
  simp [tryFocusedForallElim, h2, pySetOfList, dedupBy, dedupBy.go, pyDiffUpdateList]

/-- C9 (amended).  Formula equality is structural per connective class,
with the sugar classes compared through their De Morgan encodings, and the
hash key is the canonical string; whenever equality is reflexive on `l`
and `r` (it fails to be reflexive only on focused-forall formulas whose
guard differs from their body, through the equality defect of
`FocusQuantifiedFormula.__eq__`), the sugared `Or(l, r)` is `__eq__`-equal
to its independently built De Morgan encoding `Not(And(Not l, Not r))` —
while the two canonical strings, and hence the hash keys, ALWAYS differ.
So formula equality does not imply hash-key equality. -/
theorem c9_amended_or_equals_demorgan (l r : Formula)
    (hl : pyEq l l = true) (hr : pyEq r r = true) :
    pyEq (.orF l r) (.notF (.andF (.notF l) (.notF r))) = true ∧
    Formula.str (.orF l r) ≠ Formula.str (.notF (.andF (.notF l) (.notF r))) := by
  constructor
  · simp only [pyEq, eqView, coreEq]
    simp only [pyEq] at hl hr
    simp [hl, hr]
  · intro h
    have hd := congrArg String.data h
    simp only [Formula.str, data_append] at hd
    simp at hd

/-- Closed witness for `c9_amended_or_equals_demorgan` at `l = p(a)`,
`r = p(b)`. -/
theorem c9_amended_witness :
    pyEq (.orF pA pB) (.notF (.andF (.notF pA) (.notF pB))) = true ∧
    Formula.str (.orF pA pB) ≠ Formula.str (.notF (.andF (.notF pA) (.notF pB))) :=
  c9_amended_or_equals_demorgan pA pB (by decide) (by decide)

/-- C10 (confirmed).  Whenever `Tableau.merge` is called with a parent
and returns normally, the substitution of the returned node is (a copy of)
the parent's substitution: the merged substitution computed from the
inputs is passed into the intermediate node but then discarded by
`get_unique_tableau`, which rebuilds the node without a substitution so
that `__post_init__` copies the parent's. -/
theorem c10_merge_substitution_copies_parent (ts : List Tableau) (P m : Tableau)
    (h : Tableau.merge ts (some P) = .ok m) :
    m.node.substitution = P.node.substitution := by
  cases ts with
  | nil =>
      simp only [Tableau.merge] at h
      cases h
      simp [mkTableau]
  | cons t rest =>
      simp only [Tableau.merge] at h
      split at h
      · cases h
      · cases h
        simp [Tableau.getUniqueTableau, mkTableau, Tableau.parent, Tableau.chain]
      · cases h
        simp [Tableau.getUniqueTableau, mkTableau, Tableau.parent, Tableau.chain]

/-- Closed witness for `c10_merge_substitution_copies_parent`: merging a
node binding `x ↦ c2` under a parent binding `x ↦ c1` yields a node whose
substitution is the parent's `{x ↦ c1}`. -/
theorem c10_witness :
    ∃ m : Tableau, Tableau.merge [t10a] (some t10parent) = .ok m ∧
      m.node.substitution = t10parent.node.substitution := by
  cases hm : Tableau.merge [t10a] (some t10parent) with
  | ok m => exact ⟨m, rfl, c10_merge_substitution_copies_parent _ _ _ hm⟩
  | error e =>
      have h1 : okOf (Tableau.merge [t10a] (some t10parent)) = none := by
        rw [hm]; rfl
      have h2 : okOf (Tableau.merge [t10a] (some t10parent)) ≠ none := by decide
      exact absurd h1 h2


theorem mkTableau_node_formulas (fs : List Formula) (es : List Term)
    (p : Option Tableau) (s : Option Substitution) (d : List Formula)
    (sal : SalMap) : (mkTableau fs es p s d sal).node.formulas = fs := rfl

/-- C8 (confirmed).  Over `n` local disjunction-shaped formulas
(`Not(And(…))`, the De Morgan encodings the rule matches), `try_or_elim`
yields at most `2^n` branches, pairwise distinct under the tuple identity
the source deduplicates by, and never a branch with an empty formula
set. -/
theorem c8_or_elim_bounds (t : Tableau) (bs : List Tableau)
    (h : tryOrElim t = some bs) :
    bs.length ≤ 2 ^ (orDisjs t).length ∧
    (bs.map (fun b => b.node.formulas)).Pairwise (fun a b => tupMatch a b = false) ∧
    (∀ b ∈ bs, b.node.formulas ≠ []) := by
  simp only [tryOrElim] at h
  split at h
  · cases h
  · injection h with h
    subst h
    refine ⟨?_, ?_, ?_⟩
    · calc ((orTuples t).map (fun b => mkTableau b [] (some t) none [] [])).length
          = (orTuples t).length := List.length_map _ _
        _ ≤ ((orBranchSets t).map sortByStr).length := dedupBy_length _
        _ = (orBranchSets t).length := List.length_map _ _
        _ ≤ ((cartProduct ((orPairs t).map (fun p => [p.1, p.2]))).map
              (fun c => pyDiffUpdateList (pySetOfList c) t.branchFormulas)).length := by
            exact List.length_filter_le _ _
        _ = (cartProduct ((orPairs t).map (fun p => [p.1, p.2]))).length :=
            List.length_map _ _
        _ = 2 ^ (orDisjs t).length := by
            rw [cartProduct_length, List.map_map]
            have : (List.length ∘ fun p : Formula × Formula => [p.1, p.2]) =
                (fun _ => (2 : Nat)) := by
              funext p; rfl
            rw [this, prod_const_two, orPairs, List.length_map]
    · rw [List.map_map]
      have : ((fun b : Tableau => b.node.formulas) ∘
          (fun b => mkTableau b [] (some t) none [] [])) = id := by
        funext b; rfl
      rw [this, List.map_id]
      exact dedupBy_pairwise _
    · intro b hb
      rcases List.mem_map.mp hb with ⟨tup, htup, rfl⟩
      rcases List.mem_map.mp (dedupBy_mem htup) with ⟨bset, hbset, rfl⟩
      have hpos : 0 < bset.length := by
        have h5 := (List.mem_filter.mp hbset).2
        simpa using h5
      rw [mkTableau_node_formulas]
      intro hemp
      have : (sortByStr bset).length = bset.length := List.length_mergeSort _
      rw [hemp] at this
      simp at this
      omega

/-- Closed witness for `c8_or_elim_bounds` at the single disjunction
`Or(p(a), p(b))`. -/
theorem c8_witness :
    ∃ bs, tryOrElim t8in = some bs ∧
      bs.length ≤ 2 ^ (orDisjs t8in).length ∧
      (bs.map (fun b => b.node.formulas)).Pairwise (fun a b => tupMatch a b = false) ∧
      (∀ b ∈ bs, b.node.formulas ≠ []) := by
  cases hb : tryOrElim t8in with
  | none =>
      have h2 : tryOrElim t8in ≠ none := by decide
      exact absurd hb h2
  | some bs =>
      rcases c8_or_elim_bounds t8in bs hb with ⟨h1, h2, h3⟩
      exact ⟨bs, rfl, h1, h2, h3⟩

theorem singleAgentEvents_go_cases (t : Tableau) :
    ∀ (l : List Formula) (seen : List Term),
      singleAgentEvents.go t seen l = t ∨
      singleAgentEvents.go t seen l = mkTableau [falseF] [] (some t) none [] [] := by
  intro l
  induction l with
  | nil => intro seen; left; rfl
  | cons a rest ih =>
      intro seen
      unfold singleAgentEvents.go
      split
      · right; rfl
      · exact ih _

theorem singleTypeEvents_go_cases (t : Tableau) :
    ∀ (l : List Formula) (seen : List Term),
      singleTypeEvents.go t seen l = t ∨
      singleTypeEvents.go t seen l = mkTableau [falseF] [] (some t) none [] [] := by
  intro l
  induction l with
  | nil => intro seen; left; rfl
  | cons a rest ih =>
      intro seen
      unfold singleTypeEvents.go
      split
      · right; rfl
      · exact ih _

theorem isBranchConsistent_falsity_child (t : Tableau) :
    isBranchConsistent (mkTableau [falseF] [] (some t) none [] []) = false := by
  have hbf : (mkTableau [falseF] [] (some t) none [] []).branchFormulas =
      falseF :: t.branchFormulas := by
    simp [mkTableau, Tableau.branchFormulas, Tableau.chain]
  simp [isBranchConsistent, hbf, pyListMem, pyEq_falseF_refl]

/-- C3 (amended).  The closed-branch behaviour of the source: a node is
reported closed exactly when the falsity literal is on the branch, or some
branch formula is the negation of the canonical `True`, or a branch
formula's negation target is `__eq__` to some branch formula, or — among
the node's LOCAL formulas only — an equality of two non-`__eq__` terms
(named constants or not) or a negated equality of equal terms occurs; and
two agent (resp. type) literals on the same event close a branch only
through the event-uniqueness axioms, which inject the falsity literal into
a child whenever they fire, that child then being reported closed. -/
theorem c3_amended_closed_branch :
    (∀ t : Tableau, isBranchConsistent t = false ↔
      ((∃ e ∈ t.branchFormulas, pyEq e falseF = true) ∨
       (∃ f ∈ t.branchFormulas, f.isNot = true ∧ f.inner = trueF) ∨
       (∃ f ∈ t.branchFormulas, f.isNot = true ∧
         ∃ e ∈ t.branchFormulas, pyEq e f.inner = true) ∨
       (∃ f ∈ t.node.formulas, f.isEq = true ∧ f.eqLeft ≠ f.eqRight) ∨
       (∃ f ∈ t.node.formulas, f.isNot = true ∧ f.inner.isEq = true ∧
         f.inner.eqLeft = f.inner.eqRight))) ∧
    (∀ t : Tableau, singleAgentEvents t ≠ t →
      isBranchConsistent (singleAgentEvents t) = false) ∧
    (∀ t : Tableau, singleTypeEvents t ≠ t →
      isBranchConsistent (singleTypeEvents t) = false) := by
  refine ⟨?_, ?_, ?_⟩
  · intro t
    have key : isBranchConsistent t = false ↔
        (pyListMem falseF t.branchFormulas ||
         t.branchFormulas.any (fun f => f.isNot && f.inner = trueF) ||
         t.branchFormulas.any (fun f => f.isNot && pyListMem f.inner t.branchFormulas) ||
         t.node.formulas.any (fun f =>
           (f.isEq && !decide (f.eqLeft = f.eqRight)) ||
           (f.isNot && f.inner.isEq && decide (f.inner.eqLeft = f.inner.eqRight)))) = true := by
      simp only [isBranchConsistent]
      cases h1 : pyListMem falseF t.branchFormulas <;>
        cases h2 : t.branchFormulas.any (fun f => f.isNot && f.inner = trueF) <;>
        cases h3 : t.branchFormulas.any
          (fun f => f.isNot && pyListMem f.inner t.branchFormulas) <;>
        cases h4 : t.node.formulas.any (fun f =>
          (f.isEq && !decide (f.eqLeft = f.eqRight)) ||
          (f.isNot && f.inner.isEq && decide (f.inner.eqLeft = f.inner.eqRight))) <;>
        simp [h1, h2, h3, h4]
    rw [key]
    simp only [Bool.or_eq_true, pyListMem, List.any_eq_true, Bool.and_eq_true,
      Bool.not_eq_true', decide_eq_true_eq, decide_eq_false_iff_not]
    constructor
    · rintro (((h | h) | h) | ⟨f, hf, h | h⟩)
      · exact Or.inl h
      · exact Or.inr (Or.inl h)
      · exact Or.inr (Or.inr (Or.inl h))
      · exact Or.inr (Or.inr (Or.inr (Or.inl ⟨f, hf, h⟩)))
      · exact Or.inr (Or.inr (Or.inr (Or.inr ⟨f, hf, h.1.1, h.1.2, h.2⟩)))
    · rintro (h | h | h | ⟨f, hf, h⟩ | ⟨f, hf, h⟩)
      · exact Or.inl (Or.inl (Or.inl h))
      · exact Or.inl (Or.inl (Or.inr h))
      · exact Or.inl (Or.inr h)
      · exact Or.inr ⟨f, hf, Or.inl h⟩
      · exact Or.inr ⟨f, hf, Or.inr ⟨⟨h.1, h.2.1⟩, h.2.2⟩⟩
  · intro t h
    rcases singleAgentEvents_go_cases t
        ((t.branchLiterals.filter Formula.isAtomP).filter (fun a =>
          match a with
          | .atom n args => n = "agent" && args.length = 2
          | _ => false)) [] with hc | hc
    · exact absurd hc h
    · rw [show singleAgentEvents t = singleAgentEvents.go t []
          ((t.branchLiterals.filter Formula.isAtomP).filter (fun a =>
            match a with
            | .atom n args => n = "agent" && args.length = 2
            | _ => false)) from rfl, hc]
      exact isBranchConsistent_falsity_child t
  · intro t h
    rcases singleTypeEvents_go_cases t
        ((t.branchLiterals.filter Formula.isAtomP).filter (fun a =>
          match a with
          | .atom n args => n = "type" && args.length = 2
          | _ => false)) [] with hc | hc
    · exact absurd hc h
    · rw [show singleTypeEvents t = singleTypeEvents.go t []
          ((t.branchLiterals.filter Formula.isAtomP).filter (fun a =>
            match a with
            | .atom n args => n = "type" && args.length = 2
            | _ => false)) from rfl, hc]
      exact isBranchConsistent_falsity_child t

/-- Closed witness for `c3_amended_closed_branch`: the characterization at
the `Eq(c1, c2)` node, and the agent/type axiom conjuncts fired at nodes
with duplicated event literals. -/
theorem c3_amended_witness :
    isBranchConsistent t3parent = false ∧
    isBranchConsistent (singleAgentEvents t3dup) = false ∧
    isBranchConsistent (singleTypeEvents t3dupT) = false := by
  refine ⟨?_, ?_, ?_⟩
  · exact (c3_amended_closed_branch.1 t3parent).mpr (by decide)
  · exact c3_amended_closed_branch.2.1 t3dup (by decide)
  · exact c3_amended_closed_branch.2.2 t3dupT (by decide)

end TableauModel
